import Mathlib

/-!
Shallow embedding of the per-namespace leader-election state machine in
`service/sharddistributor/leader/namespace/manager.go`.

The Go code runs one handler goroutine per configured namespace.  Each
handler executes `runElection`, a loop over a three-valued state
(`stateActive`, `stateIdle`, `stateStop`):

* in `stateActive` it runs `campaign`, which snapshots the observer
  drain channel, fast-path checks whether it is already closed, creates
  an elector under a child cancellable context, and then loops over a
  three-way `select` (parent ctx done / drain snapshot closed /
  leadership event);
* in `stateIdle` it runs `idle`, a two-way `select` (parent ctx done /
  undrain snapshot closed);
* `stateStop` terminates the goroutine.

Go `select` semantics are embedded explicitly: one `Wakeup` per select
round records which branches are ready and which ready branch the
runtime picked (Go chooses uniformly at random among ready cases, so the
pick is a free parameter constrained only to be ready).  A nil channel
(no drain observer configured) is a branch that is never ready.

The `Manager` (`Start` / `Stop` / `handleNamespace`) is embedded as a
record holding the namespace registry (map keys), the list of spawned
handler goroutines, and whether the cancel function has been set
(`m.cancel != nil` in Go).
-/

namespace ShardDistributor

/-- `electionState` from manager.go: the state of the election state machine. -/
inductive electionState where
  | stateActive
  | stateIdle
  | stateStop
  deriving DecidableEq, Repr

open electionState

/-- The three branches of the `select` inside the main loop of `campaign`:
`<-ctx.Done()`, `<-drainCh`, and `isLeader, ok := <-leaderCh`. -/
inductive Branch where
  | ctxDone
  | drain
  | leader
  deriving DecidableEq, Repr

/-- One wakeup of the three-way select in `campaign`: which branches are ready,
the value carried by the leadership branch when it is the one taken, and
the branch the Go runtime picked.  Go picks uniformly at random among
ready cases, so `pick` is free apart from the readiness constraint in
`Wakeup.valid`. -/
structure Wakeup where
  ctxDoneReady : Bool
  drainReady : Bool
  leaderReady : Bool
  isLeader : Bool
  leaderOk : Bool
  pick : Branch
  deriving DecidableEq, Repr

/-- Readiness of the branch a wakeup picked. -/
def Wakeup.pickReady (w : Wakeup) : Bool :=
  match w.pick with
  | Branch.ctxDone => w.ctxDoneReady
  | Branch.drain => w.drainReady
  | Branch.leader => w.leaderReady

/-- Go select semantics: the picked branch must be ready, and a nil drain
channel (`observerPresent = false`) is never ready. -/
def Wakeup.valid (observerPresent : Bool) (w : Wakeup) : Prop :=
  w.pickReady = true ∧ (observerPresent = false → w.drainReady = false)

instance (p : Bool) (w : Wakeup) : Decidable (Wakeup.valid p w) := by
  unfold Wakeup.valid
  exact inferInstance

/-- The arguments `campaign` runs under: whether `h.drainObserver != nil`,
whether the snapshotted drain channel is already closed when the fast-path
check runs, whether `h.electionFactory.CreateElector` succeeds, and the
sequence of select wakeups the environment delivers to the main loop. -/
structure CampaignInput where
  observerPresent : Bool
  drainAlreadyClosed : Bool
  createElectorOk : Bool
  wakeups : List Wakeup
  deriving DecidableEq, Repr

/-- Channel semantics constraints on a whole campaign run: a nil drain
channel is never closed, and every wakeup is a valid select round. -/
def CampaignInput.valid (ci : CampaignInput) : Prop :=
  (ci.observerPresent = false → ci.drainAlreadyClosed = false) ∧
  ∀ w ∈ ci.wakeups, w.valid ci.observerPresent

instance (ci : CampaignInput) : Decidable ci.valid := by
  unfold CampaignInput.valid
  exact inferInstance

/-- What a `campaign` call did: the state it returned (`none` when the
main select loop is still blocked, i.e. the wakeup list was exhausted
without any return), whether `CreateElector` was called, and whether the
cancel of the elector context has run.  `cancel` is installed by `defer`
immediately after `context.WithCancel`, so it has run exactly when
`campaign` has returned from a point past the elector-context creation —
in particular before `runElection` evaluates the next state. -/
structure CampaignResult where
  state : Option electionState
  createElectorCalled : Bool
  electorCancelled : Bool
  deriving DecidableEq, Repr

/-- The main select loop of `campaign` (manager.go lines 178-196):
`<-ctx.Done()` returns `stateStop`; `<-drainCh` returns `stateIdle`;
a leadership event with `ok == false` returns `stateActive`, with
`ok == true` it logs and continues the loop. -/
def campaignSelectLoop : List Wakeup → Option electionState
  | [] => none
  | w :: ws =>
    match w.pick with
    | Branch.ctxDone => some stateStop
    | Branch.drain => some stateIdle
    | Branch.leader =>
      if w.leaderOk then campaignSelectLoop ws else some stateActive

/-- `namespaceHandler.campaign` (manager.go lines 149-197).  Snapshot the
drain channel (nil when no observer); fast-path select with `default`:
a closed non-nil drain channel fires and returns `stateIdle` before the
elector context or elector exist; otherwise create the elector context
(whose deferred cancel runs on every later return), call `CreateElector`
(on error return `stateStop`), run the elector and enter the select loop. -/
def campaign (ci : CampaignInput) : CampaignResult :=
  if ci.observerPresent && ci.drainAlreadyClosed then
    { state := some stateIdle, createElectorCalled := false, electorCancelled := false }
  else if !ci.createElectorOk then
    { state := some stateStop, createElectorCalled := true, electorCancelled := true }
  else
    { state := campaignSelectLoop ci.wakeups
      createElectorCalled := true
      electorCancelled := (campaignSelectLoop ci.wakeups).isSome }

/-- The two branches of the `select` inside `idle`. -/
inductive IdleBranch where
  | ctxDone
  | undrain
  deriving DecidableEq, Repr

/-- One wakeup of the two-way select in `idle` (the select has no `default`,
so `idle` blocks until some branch is ready). -/
structure IdleInput where
  observerPresent : Bool
  ctxDoneReady : Bool
  undrainReady : Bool
  pick : IdleBranch
  deriving DecidableEq, Repr

/-- Readiness of the branch an idle wakeup picked. -/
def IdleInput.pickReady (ii : IdleInput) : Bool :=
  match ii.pick with
  | IdleBranch.ctxDone => ii.ctxDoneReady
  | IdleBranch.undrain => ii.undrainReady

/-- Readiness constraint for the select in `idle`; a nil undrain channel
(no observer) is never ready. -/
def IdleInput.valid (ii : IdleInput) : Prop :=
  ii.pickReady = true ∧ (ii.observerPresent = false → ii.undrainReady = false)

instance (ii : IdleInput) : Decidable (IdleInput.valid ii) := by
  unfold IdleInput.valid
  exact inferInstance

/-- `namespaceHandler.idle` (manager.go lines 201-218): `<-ctx.Done()`
returns `stateStop`, `<-undrainCh` returns `stateActive`. -/
def idle (ii : IdleInput) : electionState :=
  match ii.pick with
  | IdleBranch.ctxDone => stateStop
  | IdleBranch.undrain => stateActive

/-- States a handler can be in across `runElection` iterations
(manager.go lines 131-145), for a fixed observer configuration `obs`
(`true` when `drainObserver != nil`).  The loop starts in `stateActive`;
from `stateActive` it runs `campaign` and moves to whatever state a
completed `campaign` returned; from `stateIdle` it runs `idle`;
`stateStop` returns.  Environment inputs are constrained to the channel
semantics by the validity predicates. -/
inductive Reachable (obs : Bool) : electionState → Prop where
  | start : Reachable obs stateActive
  | campaignStep (ci : CampaignInput) (s : electionState) :
      Reachable obs stateActive → ci.observerPresent = obs →
      ci.valid → (campaign ci).state = some s → Reachable obs s
  | idleStep (ii : IdleInput) :
      Reachable obs stateIdle → ii.observerPresent = obs →
      ii.valid → Reachable obs (idle ii)

/-! ## Manager -/

/-- The `Manager` fields the claims depend on. `namespaces` holds the
keys of the `map[string]*namespaceHandler` registry in insertion order;
`goroutines` lists the handler goroutines spawned by
`go handler.runElection(m.ctx)`; `cancelSet` is `m.cancel != nil`;
`ctxCancelled` records whether `m.cancel()` has been called on the
current context. -/
structure ManagerState where
  namespaces : List String
  goroutines : List String
  cancelSet : Bool
  ctxCancelled : Bool
  deriving DecidableEq, Repr

/-- A `Manager` as built by `NewManager`: empty registry, no cancel
function installed yet. -/
def newManager : ManagerState :=
  { namespaces := [], goroutines := [], cancelSet := false, ctxCancelled := false }

/-- `Manager.handleNamespace` (manager.go lines 108-126): reject a name
already in the registry, otherwise register the handler and spawn its
`runElection` goroutine. -/
def handleNamespace (m : ManagerState) (name : String) :
    Except String ManagerState :=
  if name ∈ m.namespaces then
    Except.error ("namespace " ++ name ++ " already running")
  else
    Except.ok { m with
      namespaces := m.namespaces ++ [name]
      goroutines := m.goroutines ++ [name] }

/-- The loop body of `Manager.Start`: call `handleNamespace` for each
configured namespace in order, returning the first error together with
the manager state at that point. -/
def startLoop (m : ManagerState) : List String → ManagerState × Option String
  | [] => (m, none)
  | n :: rest =>
    match handleNamespace m n with
    | Except.error e => (m, some e)
    | Except.ok m2 => startLoop m2 rest

/-- `Manager.Start` (manager.go lines 76-87): install a fresh cancellable
context (from `context.Background()`), then handle each configured
namespace, stopping at the first error. -/
def start (m : ManagerState) (cfg : List String) :
    ManagerState × Option String :=
  startLoop { m with cancelSet := true, ctxCancelled := false } cfg

/-- `Manager.Stop` (manager.go lines 92-105): error when `m.cancel` is
nil; otherwise cancel the context and wait for every handler
`cleanupWg`.  Neither the registry nor `m.cancel` is reset. -/
def stop (m : ManagerState) : ManagerState × Option String :=
  if !m.cancelSet then
    (m, some "manager was not running")
  else
    ({ m with ctxCancelled := true }, none)

/-- `Manager.Start` with the elector factory outcome made explicit.
`Start` never calls the factory: `CreateElector` runs inside the spawned
handler goroutine (`campaign`, line 170), so the result of `Start` does
not mention `factoryOk` at all. -/
def startWithFactory (_factoryOk : Bool) (m : ManagerState)
    (cfg : List String) : ManagerState × Option String :=
  start m cfg

/-! ## Helper lemmas -/

/-- Leadership events with `ok == true` keep the select loop running:
prepending them does not change the outcome of the loop. -/
theorem campaignSelectLoop_append_nonterm (pre ws : List Wakeup)
    (hpre : ∀ u ∈ pre, u.pick = Branch.leader ∧ u.leaderOk = true) :
    campaignSelectLoop (pre ++ ws) = campaignSelectLoop ws := by
  induction pre with
  | nil => rfl
  | cons u pre ih =>
    have hu := hpre u (List.mem_cons_self u pre)
    have hrest : ∀ v ∈ pre, v.pick = Branch.leader ∧ v.leaderOk = true :=
      fun v hv => hpre v (List.mem_cons_of_mem u hv)
    simp [campaignSelectLoop, hu.1, hu.2, ih hrest]

/-- With no observer configured the drain snapshot is nil, so no valid
wakeup has the drain branch ready and the loop can never return
`stateIdle`. -/
theorem campaignSelectLoop_ne_idle (ws : List Wakeup)
    (h : ∀ w ∈ ws, w.valid false) :
    campaignSelectLoop ws ≠ some stateIdle := by
  induction ws with
  | nil => simp [campaignSelectLoop]
  | cons w ws ih =>
    have hw := h w (List.mem_cons_self w ws)
    have hrest : ∀ v ∈ ws, v.valid false :=
      fun v hv => h v (List.mem_cons_of_mem w hv)
    rcases hpick : w.pick with _ | _ | _
    · simp [campaignSelectLoop, hpick]
    · exfalso
      have h1 : w.pickReady = true := hw.1
      have h2 : w.drainReady = false := hw.2 rfl
      rw [Wakeup.pickReady, hpick] at h1
      rw [h2] at h1
      exact Bool.false_ne_true h1
    · rcases hok : w.leaderOk with _ | _
      · simp [campaignSelectLoop, hpick, hok]
      · simpa [campaignSelectLoop, hpick, hok] using ih hrest

/-- `startLoop` only appends to the registry: membership is preserved. -/
theorem startLoop_namespaces_mono (cfg : List String) :
    ∀ (m : ManagerState) (x : String), x ∈ m.namespaces →
      x ∈ (startLoop m cfg).1.namespaces := by
  induction cfg with
  | nil => intro m x hx; exact hx
  | cons n rest ih =>
    intro m x hx
    by_cases hmem : n ∈ m.namespaces
    · simp [startLoop, handleNamespace, hmem]
      exact hx
    · have : x ∈ (m.namespaces ++ [n]) := List.mem_append_left _ hx
      simpa [startLoop, handleNamespace, hmem] using
        ih { m with namespaces := m.namespaces ++ [n]
                    goroutines := m.goroutines ++ [n] } x this

/-- When `startLoop` succeeds, every configured name ends up in the
registry. -/
theorem startLoop_mem (cfg : List String) :
    ∀ m : ManagerState, (startLoop m cfg).2 = none →
      ∀ x ∈ cfg, x ∈ (startLoop m cfg).1.namespaces := by
  induction cfg with
  | nil => intro m _ x hx; cases hx
  | cons n rest ih =>
    intro m hok x hx
    by_cases hmem : n ∈ m.namespaces
    · simp [startLoop, handleNamespace, hmem] at hok
    · set m2 : ManagerState :=
        { m with namespaces := m.namespaces ++ [n]
                 goroutines := m.goroutines ++ [n] } with hm2
      have hstep : startLoop m (n :: rest) = startLoop m2 rest := by
        simp [startLoop, handleNamespace, hmem, hm2]
      rw [hstep] at hok ⊢
      rcases List.mem_cons.mp hx with hx1 | hx2
      · subst hx1
        exact startLoop_namespaces_mono rest m2 x
          (by simp [hm2])
      · exact ih m2 hok x hx2

/-- `startLoop` never touches the cancel function. -/
theorem startLoop_cancelSet (cfg : List String) :
    ∀ m : ManagerState, (startLoop m cfg).1.cancelSet = m.cancelSet := by
  induction cfg with
  | nil => intro m; rfl
  | cons n rest ih =>
    intro m
    by_cases hmem : n ∈ m.namespaces
    · simp [startLoop, handleNamespace, hmem]
    · simpa [startLoop, handleNamespace, hmem] using
        ih { m with namespaces := m.namespaces ++ [n]
                    goroutines := m.goroutines ++ [n] }

/-- Every registered handler has its goroutine spawned: `startLoop`
preserves the registry/goroutine correspondence. -/
theorem startLoop_goroutines (cfg : List String) :
    ∀ m : ManagerState, m.namespaces = m.goroutines →
      (startLoop m cfg).1.namespaces = (startLoop m cfg).1.goroutines := by
  induction cfg with
  | nil => intro m h; exact h
  | cons n rest ih =>
    intro m h
    by_cases hmem : n ∈ m.namespaces
    · simpa [startLoop, handleNamespace, hmem] using h
    · simpa [startLoop, handleNamespace, hmem] using
        ih { m with namespaces := m.namespaces ++ [n]
                    goroutines := m.goroutines ++ [n] } (by simp [h])

/-- A duplicate in the remaining configuration, or a name already in the
registry, makes `startLoop` fail. -/
theorem startLoop_dup_isSome (cfg : List String) :
    ∀ m : ManagerState,
      (¬ cfg.Nodup ∨ ∃ n ∈ cfg, n ∈ m.namespaces) →
      ((startLoop m cfg).2).isSome = true := by
  induction cfg with
  | nil =>
    intro m h
    rcases h with h | ⟨n, hn, _⟩
    · exact absurd List.nodup_nil h
    · cases hn
  | cons n rest ih =>
    intro m h
    by_cases hmem : n ∈ m.namespaces
    · simp [startLoop, handleNamespace, hmem]
    · set m2 : ManagerState :=
        { m with namespaces := m.namespaces ++ [n]
                 goroutines := m.goroutines ++ [n] } with hm2
      have hstep : startLoop m (n :: rest) = startLoop m2 rest := by
        simp [startLoop, handleNamespace, hmem, hm2]
      rw [hstep]
      apply ih m2
      rcases h with hdup | ⟨k, hk, hkm⟩
      · rw [List.nodup_cons] at hdup
        push_neg at hdup
        by_cases hnr : n ∈ rest
        · exact Or.inr ⟨n, hnr, by simp [hm2]⟩
        · exact Or.inl (hdup hnr)
      · rcases List.mem_cons.mp hk with hk1 | hk2
        · exact absurd (hk1 ▸ hkm) hmem
        · exact Or.inr ⟨k, hk2, by simp [hm2]; exact Or.inl hkm⟩

/-! ## Claim theorems -/

/-- C1: when the snapshotted drain channel is observed closed in the main
select loop (after any number of `ok == true` leadership events),
`campaign` returns `stateIdle`, and the elector context has been
cancelled by the deferred cancel at that return, i.e. before
`runElection` evaluates the next state. -/
theorem campaign_drain_in_loop_cancels_and_returns_idle
    (ci : CampaignInput) (pre : List Wakeup) (w : Wakeup) (rest : List Wakeup)
    (hws : ci.wakeups = pre ++ w :: rest)
    (hfast : ci.drainAlreadyClosed = false)
    (hok : ci.createElectorOk = true)
    (hpre : ∀ u ∈ pre, u.pick = Branch.leader ∧ u.leaderOk = true)
    (hpick : w.pick = Branch.drain) :
    campaign ci = { state := some stateIdle, createElectorCalled := true,
                    electorCancelled := true } := by
  have hloop : campaignSelectLoop ci.wakeups = some stateIdle := by
    rw [hws, campaignSelectLoop_append_nonterm pre (w :: rest) hpre]
    simp [campaignSelectLoop, hpick]
  simp [campaign, hfast, hok, hloop]

/-- Witness for C1 at a concrete one-wakeup run. -/
theorem campaign_drain_in_loop_witness :
    campaign ⟨true, false, true, [⟨false, true, false, false, true, Branch.drain⟩]⟩ =
      { state := some stateIdle, createElectorCalled := true,
        electorCancelled := true } :=
  campaign_drain_in_loop_cancels_and_returns_idle _ [] _ [] rfl rfl rfl
    (by intro u hu; cases hu) rfl

/-- C2 counterexample: a valid select wakeup in which both the parent
context branch and the drain branch are ready and the runtime (which in
Go picks uniformly at random among ready cases) picks the drain branch:
`campaign` returns `stateIdle` even though the parent context is already
done. -/
theorem campaign_both_ready_returns_idle_counterexample :
    CampaignInput.valid ⟨true, false, true,
        [⟨true, true, false, false, true, Branch.drain⟩]⟩ ∧
    (⟨true, true, false, false, true, Branch.drain⟩ : Wakeup).ctxDoneReady = true ∧
    (campaign ⟨true, false, true,
        [⟨true, true, false, false, true, Branch.drain⟩]⟩).state = some stateIdle := by
  refine ⟨?_, rfl, rfl⟩
  decide

/-- C2 amended: when the parent context and the drain snapshot are ready
in the same wakeup, the select picks nondeterministically — `campaign`
returns `stateStop` when the context branch is picked and `stateIdle`
when the drain branch is picked; there is no priority for the parent
context. -/
theorem campaign_both_ready_pick_decides
    (ci : CampaignInput) (pre : List Wakeup) (w : Wakeup) (rest : List Wakeup)
    (hws : ci.wakeups = pre ++ w :: rest)
    (hfast : ci.drainAlreadyClosed = false)
    (hok : ci.createElectorOk = true)
    (hpre : ∀ u ∈ pre, u.pick = Branch.leader ∧ u.leaderOk = true)
    (hctx : w.ctxDoneReady = true)
    (hdr : w.drainReady = true) :
    (w.pick = Branch.ctxDone →
      campaign ci = { state := some stateStop, createElectorCalled := true,
                      electorCancelled := true }) ∧
    (w.pick = Branch.drain →
      campaign ci = { state := some stateIdle, createElectorCalled := true,
                      electorCancelled := true }) := by
  constructor
  · intro hpick
    have hloop : campaignSelectLoop ci.wakeups = some stateStop := by
      rw [hws, campaignSelectLoop_append_nonterm pre (w :: rest) hpre]
      simp [campaignSelectLoop, hpick]
    simp [campaign, hfast, hok, hloop]
  · intro hpick
    have hloop : campaignSelectLoop ci.wakeups = some stateIdle := by
      rw [hws, campaignSelectLoop_append_nonterm pre (w :: rest) hpre]
      simp [campaignSelectLoop, hpick]
    simp [campaign, hfast, hok, hloop]

/-- Witness for the amended C2: with both branches ready and the context
branch picked, `campaign` returns `stateStop`. -/
theorem campaign_both_ready_pick_decides_witness :
    campaign ⟨true, false, true,
        [⟨true, true, false, false, true, Branch.ctxDone⟩]⟩ =
      { state := some stateStop, createElectorCalled := true,
        electorCancelled := true } :=
  (campaign_both_ready_pick_decides _ [] _ [] rfl rfl rfl
    (by intro u hu; cases hu) rfl rfl).1 rfl

/-- C3: a drain channel already closed at the fast-path check makes
`campaign` return `stateIdle` without calling `CreateElector`. -/
theorem campaign_predrained_skips_create_elector
    (ci : CampaignInput)
    (hobs : ci.observerPresent = true)
    (hdr : ci.drainAlreadyClosed = true) :
    campaign ci = { state := some stateIdle, createElectorCalled := false,
                    electorCancelled := false } := by
  simp [campaign, hobs, hdr]

/-- Witness for C3 at a concrete pre-drained input. -/
theorem campaign_predrained_witness :
    campaign ⟨true, true, true, []⟩ =
      { state := some stateIdle, createElectorCalled := false,
        electorCancelled := false } :=
  campaign_predrained_skips_create_elector _ rfl rfl

/-- C4: a leadership event with `ok == false` (elector stream closed
unexpectedly) makes `campaign` cancel the elector context and return
`stateActive` — not `stateIdle`, not `stateStop` — and any following
`campaign` iteration that does not hit the drain fast path calls
`CreateElector` again (a fresh elector is constructed). -/
theorem campaign_stream_closed_returns_active
    (ci : CampaignInput) (pre : List Wakeup) (w : Wakeup) (rest : List Wakeup)
    (hws : ci.wakeups = pre ++ w :: rest)
    (hfast : ci.drainAlreadyClosed = false)
    (hok : ci.createElectorOk = true)
    (hpre : ∀ u ∈ pre, u.pick = Branch.leader ∧ u.leaderOk = true)
    (hpick : w.pick = Branch.leader)
    (hnok : w.leaderOk = false) :
    campaign ci = { state := some stateActive, createElectorCalled := true,
                    electorCancelled := true } ∧
    ∀ ci2 : CampaignInput, (ci2.observerPresent && ci2.drainAlreadyClosed) = false →
      (campaign ci2).createElectorCalled = true := by
  constructor
  · have hloop : campaignSelectLoop ci.wakeups = some stateActive := by
      rw [hws, campaignSelectLoop_append_nonterm pre (w :: rest) hpre]
      simp [campaignSelectLoop, hpick, hnok]
    simp [campaign, hfast, hok, hloop]
  · intro ci2 hfast2
    rcases hok2 : ci2.createElectorOk with _ | _ <;>
      simp [campaign, hfast2, hok2]

/-- Witness for C4 at a concrete run: one `ok == true` leadership event
followed by a closed stream. -/
theorem campaign_stream_closed_witness :
    campaign ⟨true, false, true,
        [⟨false, false, true, true, true, Branch.leader⟩,
         ⟨false, false, true, false, false, Branch.leader⟩]⟩ =
      { state := some stateActive, createElectorCalled := true,
        electorCancelled := true } :=
  (campaign_stream_closed_returns_active _
      [⟨false, false, true, true, true, Branch.leader⟩] _ [] rfl rfl rfl
      (by intro u hu; simp at hu; rw [hu]; exact ⟨rfl, rfl⟩) rfl rfl).1

/-- C5 counterexample: with the configuration `["a", "a"]`, `Start`
returns an error, yet the Manager has partially started — the handler for
the first `"a"` is registered and its goroutine has been spawned, so the
registry and goroutine list are not empty after the failed `Start`. -/
theorem start_duplicate_partial_start_counterexample :
    ((start newManager ["a", "a"]).2).isSome = true ∧
    (start newManager ["a", "a"]).1.namespaces = ["a"] ∧
    (start newManager ["a", "a"]).1.goroutines = ["a"] := by
  refine ⟨?_, ?_, ?_⟩ <;> rfl

/-- C5 amended: a duplicate namespace name makes `Start` return an
error, but `Start` does not roll back — every handler registered before
the duplicate keeps its spawned goroutine (registry and goroutine list
stay in lockstep). -/
theorem start_duplicate_errors_without_rollback
    (cfg : List String) (hdup : ¬ cfg.Nodup) :
    ((start newManager cfg).2).isSome = true ∧
    (start newManager cfg).1.namespaces =
      (start newManager cfg).1.goroutines := by
  constructor
  · exact startLoop_dup_isSome cfg _ (Or.inl hdup)
  · exact startLoop_goroutines cfg _ rfl

/-- Witness for the amended C5 at the configuration `["a", "a"]`. -/
theorem start_duplicate_errors_witness :
    ((start newManager ["a", "a"]).2).isSome = true ∧
    (start newManager ["a", "a"]).1.namespaces =
      (start newManager ["a", "a"]).1.goroutines :=
  start_duplicate_errors_without_rollback ["a", "a"] (by decide)

/-- C6 counterexample: after a successful `Start` and a successful
`Stop`, a second `Stop` returns no error — `m.cancel` is still set, so
the nil check does not fire and `Stop` runs through again. -/
theorem stop_twice_no_error_counterexample :
    (start newManager ["a"]).2 = none ∧
    (stop (start newManager ["a"]).1).2 = none ∧
    (stop (stop (start newManager ["a"]).1).1).2 = none := by
  refine ⟨?_, ?_, ?_⟩ <;> rfl

/-- C6 amended: `Stop` returns an error when called before `Start`
(`m.cancel` is nil), but a second `Stop` after a completed `Stop`
returns no error, because `Stop` never resets the cancel function. -/
theorem stop_before_start_errors_second_stop_succeeds :
    ((stop newManager).2).isSome = true ∧
    ∀ m : ManagerState, m.cancelSet = true →
      (stop m).2 = none ∧ (stop (stop m).1).2 = none := by
  constructor
  · rfl
  · intro m hm
    constructor
    · simp [stop, hm]
    · simp [stop, hm]

/-- Witness for the amended C6: the started manager has the cancel
function set, so both the first and second `Stop` return no error. -/
theorem stop_before_start_errors_witness :
    ((stop newManager).2).isSome = true ∧
    ((stop (start newManager ["a"]).1).2 = none ∧
     (stop (stop (start newManager ["a"]).1).1).2 = none) :=
  ⟨stop_before_start_errors_second_stop_succeeds.1,
   stop_before_start_errors_second_stop_succeeds.2
     (start newManager ["a"]).1 rfl⟩

/-- C7 counterexample: with a factory whose `CreateElector` fails
synchronously, `Start` still returns no error for the configuration
`["ns1"]` — while `campaign` running in the handler goroutine observes
the failure and returns `stateStop`. The failure is never reported
through the return value of `Start`. -/
theorem create_elector_failure_not_in_start_counterexample :
    (startWithFactory false newManager ["ns1"]).2 = none ∧
    (campaign ⟨false, false, false, []⟩).state = some stateStop := by
  exact ⟨rfl, rfl⟩

/-- C7 amended: the result of `Start` is independent of the elector
factory (which `Start` never calls — `CreateElector` runs inside the
spawned handler goroutine), and a synchronous `CreateElector` failure is
observed only there: `campaign` logs it and returns `stateStop`, with
the elector context cancelled. -/
theorem create_elector_failure_stays_in_handler
    (factoryOk : Bool) (m : ManagerState) (cfg : List String) :
    startWithFactory factoryOk m cfg = startWithFactory true m cfg ∧
    ∀ ci : CampaignInput,
      (ci.observerPresent && ci.drainAlreadyClosed) = false →
      ci.createElectorOk = false →
      campaign ci = { state := some stateStop, createElectorCalled := true,
                      electorCancelled := true } := by
  constructor
  · rfl
  · intro ci hfast hok
    simp [campaign, hfast, hok]

/-- Witness for the amended C7 at a failing factory and one namespace. -/
theorem create_elector_failure_witness :
    startWithFactory false newManager ["a"] =
      startWithFactory true newManager ["a"] ∧
    campaign ⟨false, false, false, []⟩ =
      { state := some stateStop, createElectorCalled := true,
        electorCancelled := true } :=
  ⟨(create_elector_failure_stays_in_handler false newManager ["a"]).1,
   (create_elector_failure_stays_in_handler false newManager ["a"]).2
     ⟨false, false, false, []⟩ rfl rfl⟩

/-- C8: with no drain observer configured (`obs = false`, nil drain and
undrain channels), every state the `runElection` loop can reach under
valid channel semantics is `stateActive` or `stateStop`: the handler
never transitions to `stateIdle` and stays in the active arm for its
whole lifetime. -/
theorem nil_observer_never_idle (s : electionState)
    (h : Reachable false s) : s = stateActive ∨ s = stateStop := by
  induction h with
  | start => exact Or.inl rfl
  | campaignStep ci s _ hobs hvalid hret _ =>
    rcases hokf : ci.createElectorOk with _ | _
    · rw [campaign, hobs] at hret
      simp [hokf] at hret
      exact Or.inr hret.symm
    · rw [campaign, hobs] at hret
      simp [hokf] at hret
      have hval : ∀ w ∈ ci.wakeups, w.valid false := by
        intro w hw
        have := hvalid.2 w hw
        rwa [hobs] at this
      have hne := campaignSelectLoop_ne_idle ci.wakeups hval
      cases s with
      | stateActive => exact Or.inl rfl
      | stateIdle => exact absurd hret hne
      | stateStop => exact Or.inr rfl
  | idleStep ii hr hobs hvalid ih =>
    rcases ih with h1 | h1 <;> cases h1

/-- Witness for C8: the initial state `stateActive` is reachable and is
covered by the theorem. -/
theorem nil_observer_never_idle_witness :
    stateActive = stateActive ∨ stateActive = stateStop :=
  nil_observer_never_idle stateActive Reachable.start

/-- C9: any number of leadership events with `ok == true` (whatever the
`isLeader` values) and no drain or cancellation leave `campaign` inside
its select loop: it does not return, so the handler stays in the active
arm of `runElection`. -/
theorem campaign_leadership_flips_keep_looping
    (ci : CampaignInput)
    (hfast : (ci.observerPresent && ci.drainAlreadyClosed) = false)
    (hok : ci.createElectorOk = true)
    (hall : ∀ w ∈ ci.wakeups, w.pick = Branch.leader ∧ w.leaderOk = true) :
    (campaign ci).state = none := by
  have hloop : campaignSelectLoop ci.wakeups = none := by
    have := campaignSelectLoop_append_nonterm ci.wakeups [] hall
    simpa using this
  simp [campaign, hfast, hok, hloop]

/-- Witness for C9 with two alternating leadership values
(`true` then `false`), both delivered with `ok == true`. -/
theorem campaign_leadership_flips_witness :
    (campaign ⟨true, false, true,
        [⟨false, false, true, true, true, Branch.leader⟩,
         ⟨false, false, true, false, true, Branch.leader⟩]⟩).state = none :=
  campaign_leadership_flips_keep_looping _ rfl rfl (by decide)

/-- C10: a Manager is not restartable. After a successful `Start` with a
non-empty configuration and a successful `Stop`, a second `Start` with
the same configuration fails on the first configured namespace: `Stop`
never clears the registry and `handleNamespace` rejects a name already
present. -/
theorem manager_not_restartable
    (n : String) (rest : List String)
    (h1 : (start newManager (n :: rest)).2 = none) :
    (stop (start newManager (n :: rest)).1).2 = none ∧
    (start (stop (start newManager (n :: rest)).1).1 (n :: rest)).2 =
      some ("namespace " ++ n ++ " already running") := by
  set m1 : ManagerState := (start newManager (n :: rest)).1 with hm1
  have hcancel : m1.cancelSet = true := by
    rw [hm1]
    exact startLoop_cancelSet (n :: rest) _
  have hstop : stop m1 = ({ m1 with ctxCancelled := true }, none) := by
    simp [stop, hcancel]
  refine ⟨by rw [hstop], ?_⟩
  have hmem : n ∈ m1.namespaces := by
    rw [hm1]
    exact startLoop_mem (n :: rest) _ h1 n (List.mem_cons_self n rest)
  rw [hstop]
  simp only [start, startLoop, handleNamespace]
  simp [hmem]

/-- Witness for C10 at the single-namespace configuration `["a"]`. -/
theorem manager_not_restartable_witness :
    (stop (start newManager ["a"]).1).2 = none ∧
    (start (stop (start newManager ["a"]).1).1 ["a"]).2 =
      some ("namespace " ++ "a" ++ " already running") :=
  manager_not_restartable "a" [] rfl

end ShardDistributor
